import Mathlib

/-!
Verification of the Scalecord upscale orchestration engine
(`scalecord/utils/upscale.py` and `scalecord/_commands.py`) against its
natural-language specification.

The embedding is shallow: images are their pixel dimensions, tensors are
their shapes, the inference model is represented by its integer scale
factor, and the failure behaviour of the CUDA environment is represented
by a boolean oracle.  Every definition mirrors one Python function or
method of the repository; the theorems at the end of the file settle the
specification claims.
-/

namespace Scalecord

/-! ## Images and PIL primitives -/

/-- A decoded raster image, identified by its pixel dimensions
(`PIL.Image.Image.size = (width, height)`). -/
structure Img where
  width : Nat
  height : Nat
deriving DecidableEq, Repr

/-- `PIL.Image.crop((left, upper, right, lower))`: the result always has the
exact size of the requested box; any part of the box outside the source
image is zero-padded (black).  The result's pixel dimensions therefore do
not depend on the source image's size. -/
def crop (left upper right lower : Nat) : Img :=
  ⟨right - left, lower - upper⟩

/-- Ceiling division `⌈a / b⌉` on naturals. -/
def ceilDiv (a b : Nat) : Nat := (a + b - 1) / b

/-- Python `range(0, stop, step)` for `step > 0`: the list
`[0, step, 2*step, ...]` of all multiples of `step` below `stop`
(`ceilDiv stop step` elements). -/
def pyRange (stop step : Nat) : List Nat :=
  (List.range (ceilDiv stop step)).map (· * step)

/-- The chunk list built in `upscale_image_chunks` (upscale.py:339-343):

    chunks = [image.crop((x, y, x + chunk_size, y + chunk_size))
              for y in range(0, image.height, chunk_size)
              for x in range(0, image.width, chunk_size)]

`y` is the outer loop and `x` the inner loop (row-major enumeration). -/
def chunks (image : Img) (chunk_size : Nat) : List Img :=
  (pyRange image.height chunk_size).flatMap fun y =>
    (pyRange image.width chunk_size).map fun x =>
      crop x y (x + chunk_size) (y + chunk_size)

/-- The crop origins `(x, y)` of the chunk list, in the same enumeration
order as `chunks`. -/
def chunkBoxes (image : Img) (chunk_size : Nat) : List (Nat × Nat) :=
  (pyRange image.height chunk_size).flatMap fun y =>
    (pyRange image.width chunk_size).map fun x => (x, y)

/-! ## Tensor shapes and the torch primitives used by the pipeline -/

/-- A torch tensor, represented by its shape (list of dimension sizes). -/
abbrev Shape := List Nat

/-- `transforms.ToTensor()(img).cuda().unsqueeze(0)`: a PIL image of `c`
channels becomes a tensor of shape `[1, c, height, width]`. -/
def toTensorShape (channels : Nat) (img : Img) : Shape :=
  [1, channels, img.height, img.width]

/-- The forward pass of a deterministic super-resolution model with integer
scale factor `scale` (a spandrel `ImageModelDescriptor`): a batched image
tensor `[n, c, h, w]` is mapped to `[n, c, h*scale, w*scale]`. -/
def modelForward (scale : Nat) : Shape → Shape
  | [n, c, h, w] => [n, c, h * scale, w * scale]
  | s => s

/-- `torch.cat(tensors, dim=0)`: all shapes must agree on every dimension
except dimension 0, which is summed; an empty list or a shape mismatch
raises. -/
def catDim0 : List Shape → Except String Shape
  | [] => .error "torch.cat: expected a non-empty list of Tensors"
  | s :: rest =>
    if rest.all fun t => t.tail == s.tail && t.length == s.length then
      .ok ((s.headD 0 + (rest.map (·.headD 0)).sum) :: s.tail)
    else .error "torch.cat: sizes of tensors must match except in dimension 0"

/-- `Tensor.squeeze()` with no argument: removes every dimension of size 1. -/
def squeezeAll (s : Shape) : Shape := s.filter (· ≠ 1)

/-- `Tensor.permute(1, 2, 0)`: requires exactly 3 dimensions and reorders
`[a, b, c]` to `[b, c, a]`; on any other rank torch raises
`number of dims don't match in permute`. -/
def permute120 : Shape → Except String Shape
  | [a, b, c] => .ok [b, c, a]
  | _ => .error "number of dims don't match in permute"

/-- `PIL.Image.fromarray` on a `[h, w, c]` uint8 array: produces an image of
size `(w, h)`. -/
def fromarrayShape : Shape → Except String Img
  | [h, w, _c] => .ok ⟨w, h⟩
  | _ => .error "fromarray: unsupported array shape"

/-! ## The upscale pipeline at shape level (upscale.py) -/

/-- The path-selection condition of `process_image_upscale`
(upscale.py:299): `any([n > chunk_threshold for n in image.size])`, i.e.
the tiled (chunked) path is taken iff either dimension exceeds
`chunk_threshold`. -/
def usesTiledPath (image : Img) (chunk_threshold : Nat) : Bool :=
  decide (image.width > chunk_threshold) || decide (image.height > chunk_threshold)

/-- `upscale_image_chunks` (upscale.py:319-355) at shape level, for a model
whose forward pass always succeeds: each chunk is converted to a tensor,
upscaled, and the chunk results are combined with `torch.cat(..., dim=0)`. -/
def upscale_image_chunksShape (scale channels : Nat) (image : Img) (chunk_size : Nat) :
    Except String Shape :=
  catDim0 ((chunks image chunk_size).map fun c =>
    modelForward scale (toTensorShape channels c))

/-- `upscale_image` (upscale.py:358-386) at shape level, for a model whose
forward pass always succeeds: one tensor for the whole image, one forward
pass. -/
def upscale_imageShape (scale channels : Nat) (image : Img) : Shape :=
  modelForward scale (toTensorShape channels image)

/-- `Tensor.__bool__`, as invoked by the truthiness test
`if not upscaled_image:` (upscale.py:304) when the upscale succeeded and
`upscaled_image` is a torch tensor: torch raises for any tensor with
more than one element; a one-element tensor is truthy iff its single
value is nonzero, which a shape-level model cannot see — we take the
nonzero (truthy) case, which is unreachable for an image tensor anyway
(`numel = 1*c*h*w > 1` whenever the image has a pixel and 3 or 4
channels). -/
def tensorBool (s : Shape) : Except String Bool :=
  if 1 < s.prod then
    .error "Boolean value of Tensor with more than one element is ambiguous"
  else .ok true

/-- `process_image_upscale` (upscale.py:254-316) at shape level, for a
deterministic model of scale `scale` that always succeeds: choose the
tiled or whole-image path; then `if not upscaled_image: return`
(upscale.py:304-305) evaluates the truthiness of the result — `return`
(the `none` outcome) if it is falsy, raising `Tensor.__bool__`'s error
on a multi-element tensor — and only past that check is the final image
built via `PIL.Image.fromarray(upscaled.squeeze().permute(1, 2,
0).numpy() ...)` (upscale.py:308-310). -/
def process_image_upscaleShape (scale channels : Nat) (image : Img)
    (chunk_size chunk_threshold : Nat) : Except String (Option Img) := do
  let t ←
    if usesTiledPath image chunk_threshold then
      upscale_image_chunksShape scale channels image chunk_size
    else
      .ok (upscale_imageShape scale channels image)
  let truthy ← tensorBool t
  if !truthy then
    return none
  let p ← permute120 (squeezeAll t)
  return some (← fromarrayShape p)

/-- Modelled from the spec (§4.3): the path-selection rule as the
specification states it — tiled iff
`max(image.width, image.height) > tileThreshold` AND
`model.tilingSupported`.  The repository's `ScalecordModel` has no
tiling-capability field, so this definition exists only to be compared
with `usesTiledPath`. -/
def tiledPathSpec (image : Img) (tileThreshold : Nat) (tilingSupported : Bool) : Bool :=
  decide (max image.width image.height > tileThreshold) && tilingSupported

/-! ## Output-size compliance loop (`_commands.py:114-141`)

An encoder abstracts the on-disk sizes produced by `Image.save`:
`initSize` is the size of the initial `upscaled_image.save(image_out,
optimize=True)` in the original format, and `jpegSize q` the size of
`upscaled_image.save(image_out, format='JPEG', quality=q, optimize=True)`.
-/

/-- The encoded sizes, in bytes, that saving the upscaled image can
produce. -/
structure Encoder where
  initSize : Nat
  jpegSize : Nat → Nat

/-- Discord's hard attachment limit used by the loop: `25 * 1024 * 1024`
bytes. -/
def sizeLimit : Nat := 25 * 1024 * 1024

/-- Outcome of the compliance loop: the final file size together with the
number of re-encodes performed, or the "too large" abort. -/
inductive SizeResult where
  | fits (sizeBytes : Nat) (reencodes : Nat)
  | tooLarge (reencodes : Nat)
deriving DecidableEq, Repr

/-- The `while os.path.getsize(image_out) > (25 * 1024 * 1024):` loop of
`UpscaleCog.upscale_attached_image` (_commands.py:116-141): while the
current file exceeds the limit, decrement `default_quality`; if it drops
below 90 abort with the "too large" message; otherwise re-save —
the Python passes the literal `quality=97` to `Image.save`, not the
decremented counter, so every re-encode is `enc.jpegSize 97`. -/
def complianceLoop (enc : Encoder) : Nat → Nat → Nat → SizeResult
  | size, 0, steps =>
    if size ≤ sizeLimit then .fits size steps else .tooLarge steps
  | size, quality + 1, steps =>
    if size ≤ sizeLimit then .fits size steps
    else if quality < 90 then .tooLarge steps
    else complianceLoop enc (enc.jpegSize 97) quality (steps + 1)

/-- The loop as entered by `upscale_attached_image`: the file starts as the
initial optimized save and `default_quality = 98`. -/
def enforceSize (enc : Encoder) : SizeResult :=
  complianceLoop enc enc.initSize 98 0

/-- What claim C7 requires of the loop's result: it stops after at most 8
re-encodes, and a `fits` exit really satisfies the size limit. -/
def sizeResultBounded : SizeResult → Prop
  | .fits s k => s ≤ sizeLimit ∧ k ≤ 8
  | .tooLarge k => k = 8

/-- A monotone encoder on which quality 97 is over the limit but every
quality below 96 fits: a concrete input distinguishing the hard-coded
`quality=97` from the decremented counter. -/
def encoderQ97Stuck : Encoder :=
  ⟨sizeLimit + 1, fun q => if 96 ≤ q then sizeLimit + 1 else sizeLimit⟩

/-! ## Inference sessions (`UpscaleChunkHandler` / `UpscaleHandler`)

The CUDA environment is abstracted by an oracle saying, for each
precision, whether `transforms.ToTensor()(..).cuda().unsqueeze(0)[.half()]`
succeeds and whether the model's forward pass on a tensor of that
precision succeeds.  A session's state records the resident device tensor
(`some h` = a tensor of half precision `h` is on the accelerator), the
`_half_precision` flag, and whether `_model` is still referenced.
Device-level events are traced so that allocations and frees can be
counted. -/

/-- Deterministic outcome of every environment interaction a session can
attempt. -/
structure Oracle where
  mkFull : Bool
  mkHalf : Bool
  fwdFull : Bool
  fwdHalf : Bool
deriving DecidableEq, Fintype

/-- The mutable state of one handler instance. -/
structure SessionState where
  tensor : Option Bool
  halfFlag : Bool
  modelHeld : Bool
deriving DecidableEq, Fintype

/-- Accelerator events: a tensor allocation (with its precision), the
release of a resident tensor, one forward-pass attempt, and the drop of
the session's model reference. -/
inductive Ev where
  | alloc (half : Bool)
  | free
  | forward (half : Bool) (ok : Bool)
  | dropModel
deriving DecidableEq, Repr

/-- `clear_cache` (upscale.py:150-154 and 242-246): `self._tensor = None`
followed by `torch.cuda.empty_cache()` and `gc.collect()` — dropping the
only reference frees the device tensor, so a `free` event is emitted
exactly when a tensor was resident. -/
def clearCache (s : SessionState) : SessionState × List Ev :=
  ({ s with tensor := none }, if s.tensor.isSome then [.free] else [])

/-- One attempt at `self._tensor = transforms.ToTensor()(..).cuda()
.unsqueeze(0)[.half()]`: on success the tensor of the requested precision
becomes resident; on failure (the exception paths) the state is
unchanged. -/
def mkTensor (o : Oracle) (half : Bool) (s : SessionState) :
    SessionState × List Ev × Bool :=
  if (if half then o.mkHalf else o.mkFull) then
    ({ s with tensor := some half }, [.alloc half], true)
  else (s, [], false)

/-- `__aenter__` (upscale.py:77-107; `UpscaleHandler.__aenter__`,
upscale.py:171-201, is token-identical): try to build the tensor at the
requested precision; on failure at full precision, clear the cache, set
`_half_precision = True` and retry once at half precision (exceptions
suppressed); if that also fails, or the first attempt was already at half
precision, clear the cache and return with no tensor. -/
def sessionEnter (o : Oracle) (halfInit : Bool) : SessionState × List Ev :=
  let s0 : SessionState := ⟨none, halfInit, true⟩
  let (s1, ev1, ok1) := mkTensor o halfInit s0
  if ok1 then (s1, ev1)
  else if halfInit then
    let (s2, ev2) := clearCache s1
    (s2, ev1 ++ ev2)
  else
    let (s2, ev2) := clearCache s1
    let s3 : SessionState := { s2 with halfFlag := true }
    let (s4, ev3, ok2) := mkTensor o true s3
    if ok2 then (s4, ev1 ++ ev2 ++ ev3)
    else
      let (s5, ev4) := clearCache s4
      (s5, ev1 ++ ev2 ++ ev3 ++ ev4)

/-- `__aexit__` (upscale.py:109-112 and 203-206): `self._model = None`
followed by `clear_cache()`.  Runs on every exit of the `async with`
block. -/
def sessionExit (s : SessionState) : SessionState × List Ev :=
  let (s2, ev) := clearCache { s with modelHeld := false }
  (s2, Ev.dropModel :: ev)

/-- `UpscaleChunkHandler.upscale` (upscale.py:122-148), fueled because the
Python method is recursive: attempt the forward pass on the held tensor;
on failure with `_half_precision` still unset, clear the cache, set
`_half_precision = True` (upscale.py:134), rebuild the tensor at half
precision (exceptions suppressed) and recurse; otherwise return `None`.
The result `some h` stands for the upscaled chunk produced from a tensor
of precision `h`; the outer `none` means the fuel ran out. -/
def upscaleChunkGo (o : Oracle) : Nat → SessionState →
    Option (Option Bool × SessionState × List Ev)
  | 0, _ => none
  | fuel + 1, s =>
    let fwdOk := match s.tensor with
      | none => false
      | some h => if h then o.fwdHalf else o.fwdFull
    let fwdEv : Ev := .forward (s.tensor.getD s.halfFlag) fwdOk
    if fwdOk then some (s.tensor, s, [fwdEv])
    else if s.halfFlag then some (none, s, [fwdEv])
    else
      let (s1, ev1) := clearCache s
      let s2 : SessionState := { s1 with halfFlag := true }
      let (s3, ev2, ok) := mkTensor o true s2
      if ok then
        match upscaleChunkGo o fuel s3 with
        | none => none
        | some (res, s4, ev3) => some (res, s4, fwdEv :: (ev1 ++ ev2 ++ ev3))
      else some (none, s3, fwdEv :: (ev1 ++ ev2))

/-- `UpscaleHandler.upscale` (upscale.py:216-240): identical to
`upscaleChunkGo` except that the retry branch never sets
`_half_precision = True` — the Python method (upscale.py:224-234) clears
the cache, rebuilds the tensor at half precision and recurses with the
flag still `False`. -/
def upscaleWholeGo (o : Oracle) : Nat → SessionState →
    Option (Option Bool × SessionState × List Ev)
  | 0, _ => none
  | fuel + 1, s =>
    let fwdOk := match s.tensor with
      | none => false
      | some h => if h then o.fwdHalf else o.fwdFull
    let fwdEv : Ev := .forward (s.tensor.getD s.halfFlag) fwdOk
    if fwdOk then some (s.tensor, s, [fwdEv])
    else if s.halfFlag then some (none, s, [fwdEv])
    else
      let (s1, ev1) := clearCache s
      let (s3, ev2, ok) := mkTensor o true s1
      if ok then
        match upscaleWholeGo o fuel s3 with
        | none => none
        | some (res, s4, ev3) => some (res, s4, fwdEv :: (ev1 ++ ev2 ++ ev3))
      else some (none, s3, fwdEv :: (ev1 ++ ev2))

/-- A completed run of one session, as driven by the orchestrator loop
body (upscale.py:346-350): `tensorOk` is the value of `tensor_check()`
after entry, `result` the value appended to `upscaled_chunks` (`none`
when no upscale was attempted or it failed), `final` the state after
`__aexit__`, and `trace` all accelerator events. -/
structure SessionRun where
  tensorOk : Bool
  result : Option Bool
  final : SessionState
  trace : List Ev
deriving DecidableEq

/-- One iteration of the chunk loop: enter the context manager, run
`tensor_check()`, call `upscale()` only when the check passed, and run
`__aexit__` in every case.  Fuel 2 always suffices for
`upscaleChunkGo` (the retry recursion has depth at most one); the `none`
branch is unreachable. -/
def runChunkSession (o : Oracle) (halfInit : Bool) : SessionRun :=
  let (s1, ev1) := sessionEnter o halfInit
  if s1.tensor.isSome then
    match upscaleChunkGo o 2 s1 with
    | some (res, s2, ev2) =>
      let (s3, ev3) := sessionExit s2
      ⟨true, res, s3, ev1 ++ ev2 ++ ev3⟩
    | none =>
      let (s3, ev3) := sessionExit s1
      ⟨true, none, s3, ev1 ++ ev3⟩
  else
    let (s3, ev3) := sessionExit s1
    ⟨false, none, s3, ev1 ++ ev3⟩

/-- A run of `upscale_image` / `UpscaleHandler` (upscale.py:358-386):
same scoping as the chunk loop body, but `UpscaleHandler.upscale` may
exhaust any amount of fuel, in which case no completed run exists. -/
def runWholeSession (o : Oracle) (halfInit : Bool) (fuel : Nat) :
    Option SessionRun :=
  let (s1, ev1) := sessionEnter o halfInit
  if s1.tensor.isSome then
    match upscaleWholeGo o fuel s1 with
    | some (res, s2, ev2) =>
      let (s3, ev3) := sessionExit s2
      some ⟨true, res, s3, ev1 ++ ev2 ++ ev3⟩
    | none => none
  else
    let (s3, ev3) := sessionExit s1
    some ⟨false, none, s3, ev1 ++ ev3⟩

/-- Whether a chunk's session produced an upscaled chunk: the tensor check
passed and `upscale()` returned a result. -/
def sessionOk (o : Oracle) (halfInit : Bool) : Bool :=
  (runChunkSession o halfInit).tensorOk && (runChunkSession o halfInit).result.isSome

/-- A completed run of the `for chunk in chunks:` loop of
`upscale_image_chunks` (upscale.py:346-355), one oracle per chunk:
`opened` counts the sessions opened, `results` is `upscaled_chunks`,
`output` is `some n` when the loop fell through to
`torch.cat(upscaled_chunks, dim=0)` over `n` chunk results and `none`
when the function returned `logger.error(...)` (which returns `None`). -/
structure LoopRun where
  opened : Nat
  results : List (Option Bool)
  output : Option Nat
  trace : List Ev
deriving DecidableEq

/-- The chunk loop: on a failed `tensor_check()` return `None`
immediately (upscale.py:348-349); otherwise append `upscale()`'s result
and continue; after the loop, fail if `any(n is None ...)`
(upscale.py:353-354). -/
def chunkLoopAux (halfInit : Bool) :
    List Oracle → List (Option Bool) → Nat → List Ev → LoopRun
  | [], acc, opened, tr =>
    ⟨opened, acc, if acc.any (·.isNone) then none else some acc.length, tr⟩
  | o :: rest, acc, opened, tr =>
    let r := runChunkSession o halfInit
    if r.tensorOk then
      chunkLoopAux halfInit rest (acc ++ [r.result]) (opened + 1) (tr ++ r.trace)
    else ⟨opened + 1, acc, none, tr ++ r.trace⟩

/-- `upscale_image_chunks` as a run over per-chunk oracles. -/
def upscale_image_chunksRun (oracles : List Oracle) (halfInit : Bool) : LoopRun :=
  chunkLoopAux halfInit oracles [] 0 []

/-- Number of forward-pass attempts in a trace. -/
def forwardCount (tr : List Ev) : Nat :=
  tr.countP fun e => match e with | .forward _ _ => true | _ => false

/-- Number of device tensor allocations in a trace. -/
def allocCount (tr : List Ev) : Nat :=
  tr.countP fun e => match e with | .alloc _ => true | _ => false

/-- Number of device tensor releases in a trace. -/
def freeCount (tr : List Ev) : Nat :=
  tr.countP fun e => match e with | .free => true | _ => false

/-- If a tensor is resident in the state, one device allocation is live. -/
def residNat (s : SessionState) : Nat :=
  if s.tensor.isSome then 1 else 0

/-! ## The render lock (`UpscaleCog.render_lock`, `_commands.py:47-49,94`)

Two concurrently submitted `/upscale` jobs are modelled as interleaved
state machines.  Each job is in one of three phases: before the
`async with self.render_lock:` block (with its accelerator work still
pending), inside the block with the accelerator active, or after the
block.  The `asyncio.Lock` is an exclusive gate: `acquire` suspends while
another holder exists, `release` is unconditional.  All of
`process_image_upscale` runs inside the locked block
(_commands.py:94-149), so "accelerator-active" coincides with the
`holding` phase. -/

/-- Where one job stands relative to the `async with self.render_lock:`
block; the `Nat` counts its remaining accelerator steps. -/
inductive Phase where
  | pre (work : Nat)
  | holding (rem : Nat)
  | post
deriving DecidableEq

/-- The joint state of the lock and the two jobs (`false` names job A,
`true` names job B in `lock`). -/
structure GateState where
  lock : Option Bool
  jobA : Phase
  jobB : Phase
deriving DecidableEq

/-- A job occupies the accelerator exactly while it is inside the locked
block. -/
def isActive : Phase → Bool
  | .holding _ => true
  | _ => false

/-- One interleaving step of the two jobs.  `acquire` fires only when the
lock is free (an `asyncio.Lock` suspends other acquirers); `work` is one
accelerator step inside the block; `release` reopens the lock when the
block is exited. -/
inductive GateStep : GateState → GateState → Prop where
  | acquireA (s : GateState) (n : Nat) : s.lock = none → s.jobA = .pre n →
      GateStep s { s with lock := some false, jobA := .holding n }
  | workA (s : GateState) (n : Nat) : s.jobA = .holding (n + 1) →
      GateStep s { s with jobA := .holding n }
  | releaseA (s : GateState) : s.jobA = .holding 0 →
      GateStep s { s with lock := none, jobA := .post }
  | acquireB (s : GateState) (n : Nat) : s.lock = none → s.jobB = .pre n →
      GateStep s { s with lock := some true, jobB := .holding n }
  | workB (s : GateState) (n : Nat) : s.jobB = .holding (n + 1) →
      GateStep s { s with jobB := .holding n }
  | releaseB (s : GateState) : s.jobB = .holding 0 →
      GateStep s { s with lock := none, jobB := .post }

/-- Initial state: the lock is free and both jobs are submitted, with `n`
and `m` accelerator steps of work respectively. -/
def gateInit (n m : Nat) : GateState :=
  ⟨none, .pre n, .pre m⟩

/-- The lock discipline: an active job holds the lock under its own name. -/
def GateInv (s : GateState) : Prop :=
  (isActive s.jobA = true → s.lock = some false) ∧
  (isActive s.jobB = true → s.lock = some true)

/-- What the resource-release invariant requires of a completed
whole-image run: no resident tensor, no model reference, and every
allocation matched by a release.  A fuel-exhausted run imposes nothing. -/
def wholeRunClean : Option SessionRun → Prop
  | none => True
  | some r =>
    r.final.tensor = none ∧ r.final.modelHeld = false ∧
    allocCount r.trace = freeCount r.trace

/-! ## Helper lemmas -/

/-- Row-major flattening of a rectangular grid: the concatenation of the
rows, built with `y` outer and `x` inner, lists the cell `(i / cols,
i % cols)` at position `i`. -/
lemma range_flatMap_grid {α : Type} (f : Nat → Nat → α) (rows cols : Nat) :
    (List.range rows).flatMap (fun r => (List.range cols).map fun c => f r c) =
      (List.range (rows * cols)).map fun i => f (i / cols) (i % cols) := by
  induction rows with
  | zero => simp
  | succ n ih =>
    rw [List.range_succ, List.flatMap_append, ih, Nat.succ_mul, List.range_add,
      List.map_append, List.map_map]
    congr 1
    simp only [List.flatMap_cons, List.flatMap_nil, List.append_nil]
    refine List.map_congr_left fun c hc => ?_
    have hcc : c < cols := List.mem_range.mp hc
    have hpos : 0 < cols := Nat.lt_of_le_of_lt (Nat.zero_le c) hcc
    have hd : (n * cols + c) / cols = n := by
      rw [Nat.mul_comm, Nat.mul_add_div hpos, Nat.div_eq_of_lt hcc, Nat.add_zero]
    have hm : (n * cols + c) % cols = c := by
      rw [Nat.mul_comm, Nat.mul_add_mod, Nat.mod_eq_of_lt hcc]
    simp [Function.comp, hd, hm]

/-- The crop origins of the chunk list, as a row-major indexed grid. -/
lemma chunkBoxes_eq_grid (w h cs : Nat) :
    chunkBoxes ⟨w, h⟩ cs =
      (List.range (ceilDiv h cs * ceilDiv w cs)).map
        (fun i => ((i % ceilDiv w cs) * cs, (i / ceilDiv w cs) * cs)) := by
  have hb : chunkBoxes ⟨w, h⟩ cs =
      (List.range (ceilDiv h cs)).flatMap
        (fun r => (List.range (ceilDiv w cs)).map fun c => (c * cs, r * cs)) := by
    simp only [chunkBoxes, pyRange, List.flatMap_map, List.map_map]
    rfl
  rw [hb, range_flatMap_grid (fun r c => (c * cs, r * cs))]

/-- Every chunk is the crop of a `chunk_size × chunk_size` box. -/
lemma chunks_eq_map_boxes (img : Img) (cs : Nat) :
    chunks img cs =
      (chunkBoxes img cs).map fun p => crop p.1 p.2 (p.1 + cs) (p.2 + cs) := by
  simp only [chunks, chunkBoxes, List.map_flatMap, List.map_map]
  rfl

/-- The compliance loop, started at any quality of at least 90, exits with
a size within the limit or reaches the floor; either way it performs at
most `quality - 90` re-encodes beyond those already counted. -/
lemma complianceLoop_spec (enc : Encoder) :
    ∀ q : Nat, 90 ≤ q → ∀ size steps : Nat,
      (∀ s k, complianceLoop enc size q steps = .fits s k →
        s ≤ sizeLimit ∧ k ≤ steps + (q - 90)) ∧
      (∀ k, complianceLoop enc size q steps = .tooLarge k → k = steps + (q - 90)) := by
  intro q
  induction q with
  | zero => omega
  | succ n ih =>
    intro _hq size steps
    constructor
    · intro s k hres
      simp only [complianceLoop] at hres
      split at hres
      next hle => cases hres; exact ⟨hle, by omega⟩
      next hgt =>
        split at hres
        next hlt => cases hres
        next hnlt =>
          have hb := (ih (by omega) (enc.jpegSize 97) (steps + 1)).1 s k hres
          exact ⟨hb.1, by omega⟩
    · intro k hres
      simp only [complianceLoop] at hres
      split at hres
      next hle => cases hres
      next hgt =>
        split at hres
        next hlt => cases hres; omega
        next hnlt =>
          have hb := (ih (by omega) (enc.jpegSize 97) (steps + 1)).2 k hres
          omega

/-- The chunk loop's outcome, for any already-collected results: it falls
through to `torch.cat` exactly when no collected result is `None` and
every remaining chunk's session succeeds. -/
lemma chunkLoopAux_output (halfInit : Bool) (os : List Oracle) :
    ∀ acc opened tr,
      (chunkLoopAux halfInit os acc opened tr).output =
        if acc.any (·.isNone) || !(os.all fun o => sessionOk o halfInit)
        then none else some (acc.length + os.length) := by
  induction os with
  | nil =>
    intro acc opened tr
    simp [chunkLoopAux]
  | cons o rest ih =>
    intro acc opened tr
    simp only [chunkLoopAux, List.all_cons]
    by_cases htok : (runChunkSession o halfInit).tensorOk
    · rw [if_pos htok, ih]
      rcases hres : (runChunkSession o halfInit).result with _ | b
      · simp [sessionOk, htok, hres, List.any_append]
      · simp only [sessionOk, htok, hres, List.any_append, List.length_append,
          List.length_cons, List.length_nil]
        have hlen : acc.length + 1 + rest.length = acc.length + (rest.length + 1) := by omega
        simp [hlen]
    · rw [if_neg htok]
      have hok : sessionOk o halfInit = false := by
        simp [sessionOk, htok]
      simp [hok]

/-- With a model whose forward pass always raises at either precision but
whose half-precision tensors always build, `UpscaleHandler.upscale`
exhausts every amount of fuel: the method never sets `_half_precision`
in its retry branch, so the retry recursion never stops. -/
lemma upscaleWholeGo_diverges (fuel : Nat) :
    ∀ (t mh : Bool),
      upscaleWholeGo ⟨true, true, false, false⟩ fuel ⟨some t, false, mh⟩ = none := by
  induction fuel with
  | zero => intro t mh; rfl
  | succ n ih =>
    intro t mh
    simp only [upscaleWholeGo, clearCache, mkTensor]
    cases t <;> simp [ih]

/-- Once `_half_precision` is set, `UpscaleChunkHandler.upscale` returns
without recursing. -/
lemma upscaleChunkGo_halfFlag_isSome (o : Oracle) (fuel : Nat) (s : SessionState)
    (h : s.halfFlag = true) : (upscaleChunkGo o (fuel + 1) s).isSome = true := by
  simp only [upscaleChunkGo, h]
  split <;> simp

/-- Building a tensor does not change the `_half_precision` flag. -/
lemma mkTensor_fst_halfFlag (o : Oracle) (b : Bool) (s : SessionState) :
    (mkTensor o b s).1.halfFlag = s.halfFlag := by
  unfold mkTensor
  split <;> split <;> rfl

/-- `UpscaleChunkHandler.upscale` recurses at most once: two units of fuel
always complete the call, from any state. -/
lemma upscaleChunkGo_fuel_two (o : Oracle) (s : SessionState) (fuel : Nat) :
    (upscaleChunkGo o (fuel + 2) s).isSome = true := by
  rw [show fuel + 2 = (fuel + 1) + 1 from rfl, upscaleChunkGo]
  dsimp only
  split
  · rfl
  · split
    · rfl
    · by_cases hok : (mkTensor o true { clearCache s |>.1 with halfFlag := true }).2.2 = true
      · simp only [hok, if_true]
        have hhf : (mkTensor o true { clearCache s |>.1 with halfFlag := true }).1.halfFlag
            = true := by
          rw [mkTensor_fst_halfFlag]
        have hs := upscaleChunkGo_halfFlag_isSome o fuel _ hhf
        revert hs
        generalize upscaleChunkGo o (fuel + 1)
          (mkTensor o true { clearCache s |>.1 with halfFlag := true }).1 = r
        intro hs
        rcases r with _ | ⟨res, s4, ev3⟩
        · simp at hs
        · rfl
      · simp [hok]

/-- Counting allocations distributes over concatenation. -/
lemma allocCount_append (a b : List Ev) :
    allocCount (a ++ b) = allocCount a + allocCount b := List.countP_append ..

/-- Counting releases distributes over concatenation. -/
lemma freeCount_append (a b : List Ev) :
    freeCount (a ++ b) = freeCount a + freeCount b := List.countP_append ..

/-- A forward-pass event is neither an allocation nor a release. -/
lemma allocCount_cons_forward (h k : Bool) (l : List Ev) :
    allocCount (Ev.forward h k :: l) = allocCount l := by
  simp [allocCount, List.countP_cons]

/-- A forward-pass event is neither an allocation nor a release. -/
lemma freeCount_cons_forward (h k : Bool) (l : List Ev) :
    freeCount (Ev.forward h k :: l) = freeCount l := by
  simp [freeCount, List.countP_cons]

/-- `clear_cache` allocates nothing, releases exactly the resident tensor,
leaves no tensor resident, and keeps the model reference. -/
lemma clearCache_counts :
    ∀ s : SessionState,
      allocCount (clearCache s).2 = 0 ∧ freeCount (clearCache s).2 = residNat s ∧
      residNat (clearCache s).1 = 0 ∧ (clearCache s).1.modelHeld = s.modelHeld := by
  decide

/-- A successful tensor build performs one allocation and leaves one
tensor resident; a failed one changes nothing. -/
lemma mkTensor_counts :
    ∀ (o : Oracle) (b : Bool) (s : SessionState),
      ((mkTensor o b s).2.2 = true →
        allocCount (mkTensor o b s).2.1 = 1 ∧ freeCount (mkTensor o b s).2.1 = 0 ∧
        residNat (mkTensor o b s).1 = 1 ∧ (mkTensor o b s).1.modelHeld = s.modelHeld) ∧
      ((mkTensor o b s).2.2 = false →
        (mkTensor o b s).2.1 = [] ∧ (mkTensor o b s).1 = s) := by
  decide

/-- Device-memory accounting through any completed
`UpscaleHandler.upscale` call: allocations minus releases in its trace
equal the change in resident tensors, and the model reference is kept. -/
lemma upscaleWholeGo_balance (o : Oracle) :
    ∀ (fuel : Nat) (s : SessionState) (res : Option Bool) (s' : SessionState) (tr : List Ev),
      upscaleWholeGo o fuel s = some (res, s', tr) →
      allocCount tr + residNat s = freeCount tr + residNat s' ∧ s'.modelHeld = s.modelHeld := by
  intro fuel
  induction fuel with
  | zero => intro s res s' tr h; exact absurd h (by simp [upscaleWholeGo])
  | succ n ih =>
    intro s res s' tr h
    rw [upscaleWholeGo] at h
    dsimp only at h
    split at h
    · cases h
      exact ⟨by simp [allocCount_cons_forward, freeCount_cons_forward, allocCount, freeCount],
        rfl⟩
    · split at h
      · cases h
        exact ⟨by simp [allocCount_cons_forward, freeCount_cons_forward, allocCount, freeCount],
          rfl⟩
      · split at h
        next hok =>
          rcases hrec : upscaleWholeGo o n (mkTensor o true (clearCache s).1).1 with _ | v
          · rw [hrec] at h
            exact absurd h (by simp)
          · rcases v with ⟨res2, s4, ev3⟩
            rw [hrec] at h
            cases h
            have hih := ih _ _ _ _ hrec
            have hcc := clearCache_counts s
            have hmk := (mkTensor_counts o true (clearCache s).1).1 hok
            refine ⟨?_, by rw [hih.2, hmk.2.2.2, hcc.2.2.2]⟩
            rw [allocCount_cons_forward, freeCount_cons_forward,
              allocCount_append, allocCount_append, freeCount_append, freeCount_append,
              hcc.1, hcc.2.1, hmk.1, hmk.2.1]
            omega
        next hok =>
          cases h
          have hok' : (mkTensor o true (clearCache s).1).2.2 = false := by
            revert hok
            rcases (mkTensor o true (clearCache s).1).2.2 with _ | _ <;> simp
          have hcc := clearCache_counts s
          have hmk := (mkTensor_counts o true (clearCache s).1).2 hok'
          refine ⟨?_, by rw [hmk.2, hcc.2.2.2]⟩
          rw [allocCount_cons_forward, freeCount_cons_forward,
            allocCount_append, freeCount_append, hcc.1, hcc.2.1, hmk.1, hmk.2, hcc.2.2.1]
          simp [allocCount, freeCount]

/-- Entering a session performs exactly one unmatched allocation when a
tensor ends up resident, and none otherwise. -/
lemma sessionEnter_balance :
    ∀ (o : Oracle) (h : Bool),
      allocCount (sessionEnter o h).2 =
        freeCount (sessionEnter o h).2 + residNat (sessionEnter o h).1 := by
  decide

/-- `__aexit__` drops the model reference, leaves no resident tensor, and
releases exactly the tensor that was resident. -/
lemma sessionExit_spec :
    ∀ s : SessionState,
      (sessionExit s).1.tensor = none ∧ (sessionExit s).1.modelHeld = false ∧
      allocCount (sessionExit s).2 = 0 ∧ freeCount (sessionExit s).2 = residNat s := by
  decide

/-- A full chunk session ends with no resident tensor, no model
reference, and balanced allocation/release counts, for every oracle. -/
lemma chunkSession_clean :
    ∀ (o : Oracle) (h : Bool),
      (runChunkSession o h).final.tensor = none ∧
      (runChunkSession o h).final.modelHeld = false ∧
      allocCount (runChunkSession o h).trace = freeCount (runChunkSession o h).trace := by
  decide

/-- Every completed whole-image session run satisfies the release
invariant. -/
lemma runWholeSession_clean (o : Oracle) (halfInit : Bool) (fuel : Nat) :
    wholeRunClean (runWholeSession o halfInit fuel) := by
  have hent := sessionEnter_balance o halfInit
  rw [runWholeSession]
  dsimp only
  split
  · rcases hrec : upscaleWholeGo o fuel (sessionEnter o halfInit).1 with _ | ⟨res, s2, ev2⟩
    · exact trivial
    · have hbal := upscaleWholeGo_balance o fuel _ _ _ _ hrec
      have hexit := sessionExit_spec s2
      refine ⟨hexit.1, hexit.2.1, ?_⟩
      rw [allocCount_append, allocCount_append, freeCount_append, freeCount_append,
        hexit.2.2.1, hexit.2.2.2]
      omega
  · have hexit := sessionExit_spec (sessionEnter o halfInit).1
    next hns =>
      have hres : residNat (sessionEnter o halfInit).1 = 0 := by
        simp [residNat, hns]
      refine ⟨hexit.1, hexit.2.1, ?_⟩
      rw [allocCount_append, freeCount_append, hexit.2.2.1, hexit.2.2.2]
      omega

/-- The chunk loop preserves balanced accounting: every session it opens
is individually balanced. -/
lemma chunkLoopAux_balance (halfInit : Bool) (os : List Oracle) :
    ∀ acc opened tr, allocCount tr = freeCount tr →
      allocCount (chunkLoopAux halfInit os acc opened tr).trace =
        freeCount (chunkLoopAux halfInit os acc opened tr).trace := by
  induction os with
  | nil => intro acc opened tr h; simpa [chunkLoopAux] using h
  | cons o rest ih =>
    intro acc opened tr h
    have hses := (chunkSession_clean o halfInit).2.2
    simp only [chunkLoopAux]
    split
    · exact ih _ _ _ (by rw [allocCount_append, freeCount_append, hses, h])
    · simp only [allocCount_append, freeCount_append, hses, h]

/-- One step of the gate automaton preserves the lock discipline. -/
lemma gateStep_inv {s t : GateState} (h : GateStep s t) (hs : GateInv s) : GateInv t := by
  obtain ⟨ha, hb⟩ := hs
  cases h with
  | acquireA n hl hp =>
    refine ⟨fun _ => rfl, fun hbA => ?_⟩
    have h2 := hb hbA
    simp [hl] at h2
  | workA n hp => exact ⟨fun _ => ha (by rw [hp]; rfl), hb⟩
  | releaseA hp =>
    refine ⟨fun hx => by simp [isActive] at hx, fun hbA => ?_⟩
    have h1 := ha (by rw [hp]; rfl)
    have h2 := hb hbA
    rw [h1] at h2
    simp at h2
  | acquireB n hl hp =>
    refine ⟨fun haA => ?_, fun _ => rfl⟩
    have h2 := ha haA
    simp [hl] at h2
  | workB n hp => exact ⟨ha, fun _ => hb (by rw [hp]; rfl)⟩
  | releaseB hp =>
    refine ⟨fun haA => ?_, fun hx => by simp [isActive] at hx⟩
    have h1 := hb (by rw [hp]; rfl)
    have h2 := ha haA
    rw [h1] at h2
    simp at h2

/-! ## Claims -/

/-- C1: the claim says a successful `process_image_upscale` returns an
image of exactly `(W*S, H*S)` on both the tiled and the whole-image
path.  The code has no successful calls at all: whenever the upscale
succeeds, `upscaled_image` is a multi-element torch tensor (shape
`[4, 3, 1024, 1024]` for a 1000×600 image on the tiled path, `[1, 3,
800, 1000]` for a 500×400 image on the whole-image path, scale 2,
defaults `chunk_size=512`, `chunk_threshold=768`), so the truthiness
test `if not upscaled_image:` (upscale.py:304) raises
`Tensor.__bool__`'s RuntimeError on both paths before any image is
built, and never `(W*S, H*S)` is returned. -/
theorem C1_dimensions :
    process_image_upscaleShape 2 3 ⟨1000, 600⟩ 512 768 =
      Except.error "Boolean value of Tensor with more than one element is ambiguous" ∧
    process_image_upscaleShape 2 3 ⟨500, 400⟩ 512 768 =
      Except.error "Boolean value of Tensor with more than one element is ambiguous" ∧
    usesTiledPath ⟨1000, 600⟩ 768 = true ∧
    usesTiledPath ⟨500, 400⟩ 768 = false :=
  ⟨rfl, rfl, rfl, rfl⟩

/-- C2 (counterexample): the claim says the last row/column tiles of a
1000×600 image at tile size 512 are smaller than 512 (widths [512,488],
heights [512,88]); in the code, `PIL.Image.crop` pads out-of-range boxes,
so all four tiles are exactly 512×512. -/
theorem C2_counterexample :
    (chunks ⟨1000, 600⟩ 512).map (fun c => (c.width, c.height)) =
      [(512, 512), (512, 512), (512, 512), (512, 512)] ∧
    (chunks ⟨1000, 600⟩ 512).map (fun c => (c.width, c.height)) ≠
      [(512, 512), (488, 512), (512, 88), (488, 88)] := by
  decide

/-- C2 (amended): for every image and positive tile size, the chunk list
has exactly `ceil(W/tileSize) * ceil(H/tileSize)` tiles, every tile is
exactly `tileSize × tileSize` (the out-of-range part of an edge tile is
zero-padded by `PIL.Image.crop`, not trimmed), and the enumeration is
row-major: the `i`-th crop origin is
`((i mod cols) * tileSize, (i div cols) * tileSize)` with
`cols = ceil(W/tileSize)`. -/
theorem C2_tiling_grid (w h k : Nat) :
    (chunks ⟨w, h⟩ (k + 1)).length = ceilDiv w (k + 1) * ceilDiv h (k + 1) ∧
    (∀ c ∈ chunks ⟨w, h⟩ (k + 1), c = ⟨k + 1, k + 1⟩) ∧
    chunkBoxes ⟨w, h⟩ (k + 1) =
      (List.range (ceilDiv h (k + 1) * ceilDiv w (k + 1))).map
        (fun i => ((i % ceilDiv w (k + 1)) * (k + 1), (i / ceilDiv w (k + 1)) * (k + 1))) := by
  refine ⟨?_, ?_, chunkBoxes_eq_grid w h (k + 1)⟩
  · rw [chunks_eq_map_boxes, List.length_map, chunkBoxes_eq_grid, List.length_map,
      List.length_range, Nat.mul_comm]
  · intro c hc
    rw [chunks_eq_map_boxes] at hc
    obtain ⟨p, _, rfl⟩ := List.mem_map.mp hc
    simp [crop]

/-- C2 (witness): the grid theorem applied to the 1000×600 image at tile
size 512: four tiles, and the first tile is 512×512. -/
theorem C2_tiling_grid_witness :
    (chunks ⟨1000, 600⟩ 512).length = 4 ∧ (⟨512, 512⟩ : Img) = ⟨512, 512⟩ :=
  ⟨(C2_tiling_grid 1000 600 511).1, (C2_tiling_grid 1000 600 511).2.1 ⟨512, 512⟩ (by decide)⟩

/-- C3 (counterexample): the claim requires the tiled path to be taken
only when `model.tilingSupported` holds; for a 1000×600 image with
threshold 768 the code takes the tiled path although the spec-side
condition with `tilingSupported = false` says whole-image. -/
theorem C3_counterexample :
    usesTiledPath ⟨1000, 600⟩ 768 = true ∧ tiledPathSpec ⟨1000, 600⟩ 768 false = false :=
  ⟨rfl, rfl⟩

/-- C3 (amended): the orchestrator takes the tiled path exactly when
`max(width, height) > chunk_threshold`; the code consults no
tiling-capability flag (`ScalecordModel` has none). -/
theorem C3_path_selection (image : Img) (threshold : Nat) :
    usesTiledPath image threshold = decide (max image.width image.height > threshold) := by
  rw [Bool.eq_iff_iff]
  simp [usesTiledPath]

/-- C3 (witness): the amended selection rule at the 1000×600 image. -/
theorem C3_path_selection_witness :
    usesTiledPath ⟨1000, 600⟩ 768 = decide (max 1000 600 > 768) :=
  C3_path_selection ⟨1000, 600⟩ 768

/-- C4 (counterexample): the claim says a failed forward pass is attempted
exactly once and reported as a failure; with a model whose full-precision
forward pass fails but whose half-precision pass succeeds, the chunk
session performs two forward attempts and returns a successful
half-precision result. -/
theorem C4_counterexample :
    (runChunkSession ⟨true, true, false, true⟩ false).result = some true ∧
    forwardCount (runChunkSession ⟨true, true, false, true⟩ false).trace = 2 := by
  decide

/-- C4 (amended): the chunk session automatically retries a failed
full-precision unit of work once at half precision: the tensor check
fails only when both precisions fail to build, at most two forward passes
ever run, and `upscale` returns `None` exactly when no tensor was built,
or the full-precision pass failed and the half-precision rebuild or pass
failed, or the session was half-precision from the start and that pass
failed. -/
theorem C4_chunk_retry :
    ∀ o : Oracle,
      (runChunkSession o false).tensorOk = (o.mkFull || o.mkHalf) ∧
      forwardCount (runChunkSession o false).trace ≤ 2 ∧
      ((runChunkSession o false).result.isNone =
        ((!o.mkFull && !o.mkHalf) ||
         (o.mkFull && !o.fwdFull && (!o.mkHalf || !o.fwdHalf)) ||
         (!o.mkFull && o.mkHalf && !o.fwdHalf))) := by
  decide

/-- C5 (counterexample): the claim says the job aborts immediately at the
first failing tile; with two tiles where the first tile's forward pass
fails at both precisions, the loop still opens a second session (2
sessions, not 1) before returning the job-level failure. -/
theorem C5_counterexample :
    (upscale_image_chunksRun
        [⟨true, true, false, false⟩, ⟨true, true, true, true⟩] false).output = none ∧
    (upscale_image_chunksRun
        [⟨true, true, false, false⟩, ⟨true, true, true, true⟩] false).opened = 2 := by
  decide

/-- C5 (amended): the tiled path returns an output exactly when every
tile's session succeeds — a failed tensor check aborts the loop at that
tile, a failed forward pass is recorded and the remaining tiles are still
processed, and in both cases the job yields a single job-level failure;
no partial image is ever produced. -/
theorem C5_failure_aggregation (oracles : List Oracle) (halfInit : Bool) :
    (upscale_image_chunksRun oracles halfInit).output =
      if oracles.all (fun o => sessionOk o halfInit)
      then some oracles.length else none := by
  rw [upscale_image_chunksRun, chunkLoopAux_output]
  rcases h : oracles.all fun o => sessionOk o halfInit <;> simp [h]

/-- C6: the claim says the compliance loop re-encodes at a quality
decremented by one step each iteration and returns a fitting encoding
whenever one exists in [90, 98].  The code instead saves with the literal
`quality=97` on every iteration while decrementing an unused counter: on
a monotone encoder whose quality-97 JPEG exceeds 25 MiB but whose
qualities below 96 fit, the loop performs its 8 identical re-encodes and
reports "too large" even though fitting encodings exist. -/
theorem C6_quality97_stuck :
    enforceSize encoderQ97Stuck = .tooLarge 8 ∧
    encoderQ97Stuck.initSize > sizeLimit ∧
    encoderQ97Stuck.jpegSize 95 ≤ sizeLimit ∧
    encoderQ97Stuck.jpegSize 90 ≤ sizeLimit := by
  decide

/-- C7: for every encoder — monotone or not — the compliance loop
terminates: it either exits with a file size within the 25 MiB limit or
stops with the distinct "too large" signal once the quality counter
passes the 90 floor, after at most 8 re-encodes. -/
theorem C7_compliance_terminates (enc : Encoder) : sizeResultBounded (enforceSize enc) := by
  have h := complianceLoop_spec enc 98 (by omega) enc.initSize 0
  rcases hres : enforceSize enc with ⟨s, k⟩ | k
  · have hb := h.1 s k hres
    exact ⟨hb.1, by omega⟩
  · have hb := h.2 k hres
    show k = 8
    omega

/-- C8: on every exit path of a session the close releases the tensor,
drops the model reference and forces a cache cleanup: every chunk session
ends with no resident tensor, no model reference and allocation/release
counts equal; the whole tiled loop's trace is balanced; and every
completed whole-image run satisfies the same invariant. -/
theorem C8_resource_release :
    (∀ (o : Oracle) (h : Bool),
      (runChunkSession o h).final.tensor = none ∧
      (runChunkSession o h).final.modelHeld = false ∧
      allocCount (runChunkSession o h).trace = freeCount (runChunkSession o h).trace) ∧
    (∀ (oracles : List Oracle) (h : Bool),
      allocCount (upscale_image_chunksRun oracles h).trace =
        freeCount (upscale_image_chunksRun oracles h).trace) ∧
    (∀ (o : Oracle) (h : Bool) (fuel : Nat), wholeRunClean (runWholeSession o h fuel)) :=
  ⟨chunkSession_clean,
   fun oracles h => chunkLoopAux_balance h oracles [] 0 [] rfl,
   runWholeSession_clean⟩

/-- C9: the claim says both handlers' `upscale` terminate with at most one
half-precision retry.  `UpscaleChunkHandler.upscale` does (two units of
fuel always suffice and at most two forward passes occur), but
`UpscaleHandler.upscale` never sets `_half_precision = True` in its retry
branch, so with an always-raising forward pass and buildable
half-precision tensors it exhausts any amount of fuel — its retry
recursion is unbounded. -/
theorem C9_retry_termination :
    (∀ fuel : Nat,
        upscaleWholeGo ⟨true, true, false, false⟩ fuel ⟨some false, false, true⟩ = none) ∧
    (∀ (o : Oracle) (s : SessionState) (fuel : Nat),
        (upscaleChunkGo o (fuel + 2) s).isSome = true) ∧
    (∀ (o : Oracle) (halfInit : Bool), forwardCount (runChunkSession o halfInit).trace ≤ 2) :=
  ⟨fun fuel => upscaleWholeGo_diverges fuel false true,
   fun o s fuel => upscaleChunkGo_fuel_two o s fuel,
   by decide⟩

/-- C10: two concurrently submitted upscale jobs never have overlapping
accelerator-active intervals: in every state reachable by interleaving
the two jobs from a common start, at most one of them is inside the
`async with self.render_lock:` block. -/
theorem C10_gate_mutual_exclusion (n m : Nat) (s : GateState)
    (h : Relation.ReflTransGen GateStep (gateInit n m) s) :
    ¬(isActive s.jobA = true ∧ isActive s.jobB = true) := by
  have inv : GateInv s := by
    induction h with
    | refl =>
      exact ⟨fun hx => by simp [gateInit, isActive] at hx,
             fun hx => by simp [gateInit, isActive] at hx⟩
    | tail _ hstep ih => exact gateStep_inv hstep ih
  rintro ⟨hA, hB⟩
  have h1 := inv.1 hA
  have h2 := inv.2 hB
  rw [h1] at h2
  simp at h2

/-- C10 (witness): mutual exclusion at the concrete reachable state in
which job A has acquired the gate and job B is still waiting. -/
theorem C10_gate_mutual_exclusion_witness :
    ¬(isActive (GateState.mk (some false) (.holding 5) (.pre 3)).jobA = true ∧
      isActive (GateState.mk (some false) (.holding 5) (.pre 3)).jobB = true) :=
  C10_gate_mutual_exclusion 5 3 _ (Relation.ReflTransGen.tail Relation.ReflTransGen.refl
    (GateStep.acquireA _ 5 rfl rfl))

end Scalecord
